import Mathlib

/-!
Shallow embedding of the polygon-mask plugin of the tsparticles repository
(`src/plugins/polygonMask/src/PolygonMaskInstance.ts`).

Coordinates are modelled as rationals.  JavaScript optional values become
`Option`, thrown errors become `Except String`, and the two helper functions
that live in the plugin's `utils.ts` (not part of the provided sources) are
modelled from the specification, as marked on their doc comments.  Euclidean
distance comparisons (`dist.distance < radius`, `dist > moveRadius`) are
modelled on squared distances, which is equivalent for nonnegative radii.
-/

/-- Error message used by the plugin when geometry is queried before a load. -/
def noPolygonDataLoaded : String := "tsParticles - Error No polygon data loaded."

/-- Error message used by `_checkInsidePolygon` when no raw polygon exists. -/
def noPolygonFound : String := "tsParticles - Error No polygon found, you need to specify SVG url in config."

/-- 2D point, mirroring the engine's `ICoordinates`. -/
structure ICoordinates where
  x : ℚ
  y : ℚ
deriving DecidableEq

/-- Width/height pair, mirroring the engine's `IDimension`. -/
structure IDimension where
  width : ℚ
  height : ℚ
deriving DecidableEq

/-- Mask type enum (`PolygonMaskType`). -/
inductive PolygonMaskType where
  | none
  | inside
  | outside
  | inline
deriving DecidableEq

/-- Inline arrangement enum (`PolygonMaskInlineArrangement`); the deprecated
aliases `onePerPoint`/`perPoint` are distinct enum members in the source. -/
inductive PolygonMaskInlineArrangement where
  | equidistant
  | onePerPoint
  | perPoint
  | randomLength
  | randomPoint
deriving DecidableEq

/-- The slice of the polygon-mask options that the instance reads:
`enable`, `type`, `inline.arrangement` (flattened to `arrangement`),
`position` and `url`. -/
structure PolygonOptions where
  enable : Bool
  type : PolygonMaskType
  arrangement : PolygonMaskInlineArrangement
  position : Option ICoordinates
  url : Option String

/-- Parsed SVG path: its total length and the point-resolving function
`element.getPointAtLength`, mirroring `ISvgPath`. -/
structure ISvgPath where
  length : ℚ
  getPointAtLength : ℚ → ICoordinates

/-- The mutable fields of `PolygonMaskInstance` that the claims touch:
`raw`, `paths` and `offset`, each absent until a load succeeds. -/
structure MaskState where
  raw : Option (List ICoordinates)
  paths : Option (List ISvgPath)
  offset : Option ICoordinates

/-- The particle fields read and written by `_polygonBounce`. -/
structure ParticleState where
  pos : ICoordinates
  vel : ICoordinates
  radius : ℚ
  initialPosition : Option ICoordinates

/-- Collision direction enum (`OutModeDirection`); only `top` matters here. -/
inductive OutModeDirection where
  | bottom
  | left
  | right
  | top
deriving DecidableEq

/-- Squared Euclidean distance between two points.  The engine's
`getDistances` returns `dx`, `dy` and `distance = sqrt(dx² + dy²)`; the
plugin only compares that distance with a nonnegative radius, which is
equivalent to comparing the squares. -/
def distSq (a b : ICoordinates) : ℚ :=
  (b.x - a.x) * (b.x - a.x) + (b.y - a.y) * (b.y - a.y)

/-- One iteration of the ray-casting loop of `_checkInsidePolygon`
(line 198 of `PolygonMaskInstance.ts`): the edge `(pi, pj)` toggles the
`inside` flag when `pi.y > y !== pj.y > y` and
`x < (pj.x - pi.x) * (y - pi.y) / (pj.y - pi.y) + pi.x`.  When
`pj.y = pi.y` the first conjunct is false, so the division (by zero in the
rational model) is never material, matching JavaScript's short-circuit. -/
def edgeToggles (pi pj : ICoordinates) (x y : ℚ) : Bool :=
  (decide (pi.y > y) != decide (pj.y > y)) &&
    decide (x < (pj.x - pi.x) * (y - pi.y) / (pj.y - pi.y) + pi.x)

/-- The ray-casting loop of `_checkInsidePolygon` (lines 190-203): indices
run `i = 0, …, n-1` with `j = n-1` initially and `j = i - 1` afterwards. -/
def rayCastInside (raw : List ICoordinates) (x y : ℚ) : Bool :=
  (List.range raw.length).foldl
    (fun inside i =>
      let pi := raw.getD i ⟨0, 0⟩
      let pj := raw.getD ((i + raw.length - 1) % raw.length) ⟨0, 0⟩
      if edgeToggles pi pj x y then !inside else inside)
    false

/-- The result computation of `_checkInsidePolygon` once a raw polygon is
available (lines 186-210): the early guard returns `true` when the mask is
disabled or of type `none`/`inline`; otherwise the ray-cast result is
returned for type `inside`, negated for `outside`, and `false` in the
unreachable fall-through. -/
def checkInsideCore (o : PolygonOptions) (raw : List ICoordinates) (x y : ℚ) : Bool :=
  if !o.enable || o.type = PolygonMaskType.none || o.type = PolygonMaskType.inline then
    true
  else
    let inside := rayCastInside raw x y
    if o.type = PolygonMaskType.inside then inside
    else if o.type = PolygonMaskType.outside then !inside
    else false

/-- Full `_checkInsidePolygon` (lines 171-211).  `position` is optional in
the source with a random canvas point as fallback; the random draw is passed
in as `randPt`.  A missing raw polygon raises `noPolygonFound`; that check
happens after the enable/type guard, exactly as in the source. -/
def checkInsidePolygon (opts : Option PolygonOptions) (raw? : Option (List ICoordinates))
    (position : Option ICoordinates) (randPt : ICoordinates) : Except String Bool :=
  match opts with
  | Option.none => Except.ok true
  | some o =>
    if !o.enable || o.type = PolygonMaskType.none || o.type = PolygonMaskType.inline then
      Except.ok true
    else
      match raw? with
      | Option.none => Except.error noPolygonFound
      | some raw =>
        let x := (position.map (fun q => q.x)).getD randPt.x
        let y := (position.map (fun q => q.y)).getD randPt.y
        Except.ok (checkInsideCore o raw x y)

/-- Modelled from the spec: `calcClosestPtOnSegment` lives in the plugin's
`utils.ts`, which is not among the provided sources.  Per the spec it is the
orthogonal projection of `point` onto segment `a–b`, clamped to the
endpoints when the projection parameter falls outside `[0,1]`. -/
def calcClosestPtOnSegment (a b point : ICoordinates) : ICoordinates :=
  let dx := b.x - a.x
  let dy := b.y - a.y
  let len2 := dx * dx + dy * dy
  let t := if len2 = 0 then 0 else ((point.x - a.x) * dx + (point.y - a.y) * dy) / len2
  let tc := max 0 (min 1 t)
  ⟨a.x + tc * dx, a.y + tc * dy⟩

/-- Modelled from the spec: `segmentBounce` lives in the plugin's `utils.ts`,
which is not among the provided sources.  Per the spec it reflects the
velocity vector across the segment `a–b` (elastic bounce); written without
square roots as `v' = 2·proj_d(v) - v` with `d = b - a`. -/
def segmentBounce (a b v : ICoordinates) : ICoordinates :=
  let dx := b.x - a.x
  let dy := b.y - a.y
  let d2 := dx * dx + dy * dy
  if d2 = 0 then v
  else
    let k := (v.x * dx + v.y * dy) * 2 / d2
    ⟨k * dx - v.x, k * dy - v.y⟩

/-- The edges visited by the loops of `_checkInsidePolygon` and
`_polygonBounce`: for `i = 0, …, n-1`, the pair `(raw[i], raw[j])` with
`j = n-1` for `i = 0` and `j = i-1` afterwards. -/
def polygonEdges (raw : List ICoordinates) : List (ICoordinates × ICoordinates) :=
  (List.range raw.length).map fun i =>
    (raw.getD i ⟨0, 0⟩, raw.getD ((i + raw.length - 1) % raw.length) ⟨0, 0⟩)

/-- The edge loop of `_polygonBounce` (lines 503-518): returns the first edge
whose closest point to `pos` is strictly within the (squared) radius, or,
when none hits, the closest point computed for the last visited edge —
the source keeps overwriting `closest` on every iteration. -/
def bounceScanEdges (edges : List (ICoordinates × ICoordinates)) (pos : ICoordinates)
    (rsq : ℚ) (closest : Option ICoordinates) :
    Option (ICoordinates × ICoordinates) × Option ICoordinates :=
  match edges with
  | [] => (Option.none, closest)
  | e :: rest =>
    let c := calcClosestPtOnSegment e.1 e.2 pos
    if distSq pos c < rsq then (some e, some c)
    else bounceScanEdges rest pos rsq (some c)

/-- Full `_polygonBounce` (lines 487-552).  Returns the handled flag together
with the updated particle.  In the `inline` branch the source mutates
`velocity.x` first and then reads the new value when updating `velocity.y`;
the model reproduces that sequencing. -/
def polygonBounce (opts : Option PolygonOptions) (s : MaskState) (p : ParticleState)
    (direction : OutModeDirection) (moveRadius : ℚ) : Bool × ParticleState :=
  match s.raw, opts with
  | some raw, some o =>
    if !o.enable || direction ≠ OutModeDirection.top then (false, p)
    else if o.type = PolygonMaskType.inside || o.type = PolygonMaskType.outside then
      match bounceScanEdges (polygonEdges raw) p.pos (p.radius * p.radius) Option.none with
      | (some e, _) => (true, { p with vel := segmentBounce e.1 e.2 p.vel })
      | (Option.none, some c) =>
        if !(checkInsideCore o raw p.pos.x p.pos.y) then
          let diameter := p.radius * 2
          let fx : ℚ := if p.pos.x ≥ c.x then -1 else 1
          let fy : ℚ := if p.pos.y ≥ c.y then -1 else 1
          (true, { p with
            pos := ⟨c.x + diameter * fx, c.y + diameter * fy⟩,
            vel := ⟨p.vel.x * (-1), p.vel.y * (-1)⟩ })
        else (false, p)
      | (Option.none, Option.none) => (false, p)
    else if o.type = PolygonMaskType.inline then
      match p.initialPosition with
      | some ip =>
        if distSq ip p.pos > moveRadius * moveRadius then
          let vx := p.vel.y / 2 - p.vel.x
          let vy := vx / 2 - p.vel.y
          (true, { p with vel := ⟨vx, vy⟩ })
        else (false, p)
      | Option.none => (false, p)
    else (false, p)
  | _, _ => (false, p)

/-- Outcome of `_downloadSvgPath` (lines 269-292), separating the cached
return (no network access) from the branch that performs a fetch followed by
`_parseSvgPath`. -/
inductive DownloadOutcome where
  | noOptions
  | cachedRaw (raw : Option (List ICoordinates))
  | fetchThenParse (url : String)
deriving DecidableEq

/-- Decision logic of `_downloadSvgPath`: with no options it returns
undefined; with no url (argument nor configured) or with `paths` already set
and `force` false it returns the stored `raw` without fetching; otherwise it
fetches the url and parses the response. -/
def downloadSvgPath (opts : Option PolygonOptions) (s : MaskState)
    (svgUrl : Option String) (force : Option Bool) : DownloadOutcome :=
  match opts with
  | Option.none => DownloadOutcome.noOptions
  | some o =>
    let url := match svgUrl with
      | some u => some u
      | Option.none => o.url
    let forceDownload := force.getD false
    match url with
    | Option.none => DownloadOutcome.cachedRaw s.raw
    | some u =>
      if s.paths.isSome && !forceDownload then DownloadOutcome.cachedRaw s.raw
      else DownloadOutcome.fetchThenParse u

/-- Outcome of the cache guard at the top of `_parseSvgPath` (lines 430-434):
either the stored `raw` is returned untouched, or a fresh DOM parse runs. -/
inductive ParseOutcome where
  | cachedRaw (raw : Option (List ICoordinates))
  | parsed
deriving DecidableEq

/-- Cache guard of `_parseSvgPath`: when `paths` is already set and `force`
is absent or false, the stored `raw` is returned and nothing is re-parsed. -/
def parseSvgPathOutcome (s : MaskState) (force : Option Bool) : ParseOutcome :=
  if s.paths.isSome && !(force.getD false) then ParseOutcome.cachedRaw s.raw
  else ParseOutcome.parsed

/-- Scaled bounding box computed by `_parseSvgPath` (lines 469-470) from the
svg `width`/`height` attributes and the scale factor. -/
def scaledDimension (width height scale : ℚ) : IDimension :=
  ⟨width * scale, height * scale⟩

/-- Offset computation of `_parseSvgPath` (lines 472-482): the configured
relative position (default `(50, 50)`) applied to the canvas size, minus
half the scaled bounding box. -/
def parseOffset (canvasSize : IDimension) (position : Option ICoordinates)
    (dimension : IDimension) : ICoordinates :=
  let pos := position.getD ⟨50, 50⟩
  ⟨canvasSize.width * pos.x / 100 - dimension.width / 2,
   canvasSize.height * pos.y / 100 - dimension.height / 2⟩

/-- Segment walk of `_getEquidistantPointByIndex` (lines 326-336): subtract
the lengths of the segments already passed and stop at the first segment
whose length is not exceeded by the remaining distance; returns the segment
index and the residual offset, or nothing when the walk exhausts the list. -/
def walkSegments : List ISvgPath → ℚ → Option (Nat × ℚ)
  | [], _ => Option.none
  | p :: rest, t =>
    if t ≤ p.length then some (0, t)
    else (walkSegments rest (t - p.length)).map (fun ir => (ir.1 + 1, ir.2))

/-- Total arc length over all path segments, as the `reduce` on line 323. -/
def totalPathLength (paths : List ISvgPath) : ℚ :=
  paths.foldl (fun tot p => tot + p.length) 0

/-- The stride `distance = totalLength / particleCount` of line 324. -/
def equidistantStride (paths : List ISvgPath) (count : ℚ) : ℚ :=
  totalPathLength paths / count

/-- Full `_getEquidistantPointByIndex` (lines 307-344): undefined without
options, an error when `raw` or `paths` is absent or empty, otherwise the
point at arc-length `stride * index` (coordinates default to 0 when the walk
overruns), scaled and translated by the stored offset. -/
def getEquidistantPointByIndex (opts : Option PolygonOptions) (s : MaskState)
    (scale : ℚ) (particleCount : ℚ) (index : Nat) : Except String (Option ICoordinates) :=
  match opts with
  | Option.none => Except.ok Option.none
  | some _ =>
    match s.raw, s.paths with
    | some (_ :: _), some (p0 :: ps) =>
      let paths := p0 :: ps
      let t := equidistantStride paths particleCount * (index : ℚ)
      let pt := (walkSegments paths t).map
        (fun ir => (paths.getD ir.1 p0).getPointAtLength ir.2)
      Except.ok (some
        ⟨((pt.map (fun q => q.x)).getD 0) * scale + ((s.offset.map (fun q => q.x)).getD 0),
         ((pt.map (fun q => q.y)).getD 0) * scale + ((s.offset.map (fun q => q.y)).getD 0)⟩)
    | _, _ => Except.error noPolygonDataLoaded

/-- `_getPointByIndex` (lines 346-357): an error when no raw polygon is
loaded or it is empty, otherwise a copy of the vertex at
`index % raw.length`. -/
def getPointByIndex (raw? : Option (List ICoordinates)) (index : Nat) :
    Except String ICoordinates :=
  match raw? with
  | Option.none => Except.error noPolygonDataLoaded
  | some l =>
    if l.length = 0 then Except.error noPolygonDataLoaded
    else
      let coords := l.getD (index % l.length) ⟨0, 0⟩
      Except.ok ⟨coords.x, coords.y⟩

/-- `stop()` (lines 166-169): deletes `raw` and `paths`.  The `offset` field
is not touched by the source. -/
def stop (s : MaskState) : MaskState :=
  { s with raw := Option.none, paths := Option.none }

/-- `_drawPoints` (lines 294-305): the spawn positions it sends to
`container.particles.addParticle`, one per raw vertex, none when `raw` is
absent. -/
def drawPoints (s : MaskState) : List ICoordinates :=
  match s.raw with
  | some l => l.map (fun item => ⟨item.x, item.y⟩)
  | Option.none => []

/-- `particlesInitialization()` (lines 130-145): the returned handled flag
together with the spawn positions produced by the `_drawPoints` side
effect. -/
def particlesInitialization (opts : Option PolygonOptions) (s : MaskState) :
    Bool × List ICoordinates :=
  match opts with
  | Option.none => (false, [])
  | some o =>
    if o.enable && (o.type = PolygonMaskType.inline) &&
        (o.arrangement = PolygonMaskInlineArrangement.onePerPoint ||
         o.arrangement = PolygonMaskInlineArrangement.perPoint) then
      (true, drawPoints s)
    else (false, [])

/-- `particlePosition` (lines 120-128): undefined when options are missing,
the mask is disabled, or `raw` is absent/empty; otherwise a deep copy of the
supplied position when there is one, else of the `_randomPoint()` result
(passed in as `randomResult`).  `deepExtend` on a plain coordinates object
is value-identity. -/
def particlePosition (opts : Option PolygonOptions) (s : MaskState)
    (position : Option ICoordinates) (randomResult : Option ICoordinates) :
    Option ICoordinates :=
  match opts with
  | Option.none => Option.none
  | some o =>
    if !(o.enable && decide (0 < (s.raw.map List.length).getD 0)) then Option.none
    else
      match position with
      | some p => some ⟨p.x, p.y⟩
      | Option.none => randomResult

/-- The square polygon used by the spec's concrete containment examples. -/
def squarePolygon : List ICoordinates := [⟨0, 0⟩, ⟨10, 0⟩, ⟨10, 10⟩, ⟨0, 10⟩]

/-- Options with the mask enabled, type `inside`, used by concrete tests. -/
def insideSquareOpts : PolygonOptions :=
  ⟨true, PolygonMaskType.inside, PolygonMaskInlineArrangement.onePerPoint, Option.none, Option.none⟩

/-- Mask state holding the loaded square polygon and nothing else. -/
def loadedSquareState : MaskState := ⟨some squarePolygon, Option.none, Option.none⟩

/-- C1: the point-in-polygon test of `_checkInsidePolygon` is even-odd ray
casting: an edge `(pi, pj)` toggles the inside flag exactly when one
endpoint's y is strictly above the test y and the other is not, and the
linearly interpolated x of the edge at that y exceeds the test x; on the
square `(0,0),(10,0),(10,10),(0,10)` the test classifies `(5,5)` inside and
`(15,15)`, `(-1,-1)` outside. -/
theorem c1_ray_casting_even_odd :
    (∀ pi pj : ICoordinates, ∀ x y : ℚ,
      edgeToggles pi pj x y = true ↔
        (((pi.y > y) ↔ ¬(pj.y > y)) ∧
          x < (pj.x - pi.x) * (y - pi.y) / (pj.y - pi.y) + pi.x)) ∧
    rayCastInside squarePolygon 5 5 = true ∧
    rayCastInside squarePolygon 15 15 = false ∧
    rayCastInside squarePolygon (-1) (-1) = false ∧
    checkInsidePolygon (some insideSquareOpts) (some squarePolygon) (some ⟨5, 5⟩) ⟨0, 0⟩
      = Except.ok true ∧
    checkInsidePolygon (some insideSquareOpts) (some squarePolygon) (some ⟨15, 15⟩) ⟨0, 0⟩
      = Except.ok false ∧
    checkInsidePolygon (some insideSquareOpts) (some squarePolygon) (some ⟨-1, -1⟩) ⟨0, 0⟩
      = Except.ok false := by
  refine ⟨?_, ?_, ?_, ?_, ?_, ?_, ?_⟩
  · intro pi pj x y
    simp only [edgeToggles, Bool.and_eq_true, bne_iff_ne, ne_eq, decide_eq_decide,
      decide_eq_true_eq]
    constructor
    · rintro ⟨h1, h2⟩
      exact ⟨by tauto, h2⟩
    · rintro ⟨h1, h2⟩
      exact ⟨by tauto, h2⟩
  all_goals
    norm_num [rayCastInside, edgeToggles, squarePolygon, checkInsidePolygon,
      checkInsideCore, insideSquareOpts, List.range_succ] <;> simp

/-- C2: for a fixed loaded polygon and any point, the containment check with
type `outside` is the boolean negation of the check with type `inside`. -/
theorem c2_inside_outside_complement (o : PolygonOptions) (l : List ICoordinates)
    (p r : ICoordinates) (h : o.enable = true) :
    checkInsidePolygon (some { o with type := PolygonMaskType.outside }) (some l) (some p) r
      = (checkInsidePolygon (some { o with type := PolygonMaskType.inside })
          (some l) (some p) r).map Bool.not := by
  simp [checkInsidePolygon, checkInsideCore, h, Except.map]

/-- Witness for C2 at the square polygon and the point `(5,5)`. -/
theorem c2_inside_outside_complement_witness :
    checkInsidePolygon (some { insideSquareOpts with type := PolygonMaskType.outside })
        (some squarePolygon) (some ⟨5, 5⟩) ⟨0, 0⟩
      = (checkInsidePolygon (some { insideSquareOpts with type := PolygonMaskType.inside })
          (some squarePolygon) (some ⟨5, 5⟩) ⟨0, 0⟩).map Bool.not ∧
    checkInsidePolygon (some { insideSquareOpts with type := PolygonMaskType.outside })
        (some squarePolygon) (some ⟨5, 5⟩) ⟨0, 0⟩ = Except.ok false :=
  ⟨c2_inside_outside_complement insideSquareOpts squarePolygon ⟨5, 5⟩ ⟨0, 0⟩ rfl,
   by norm_num [checkInsidePolygon, checkInsideCore, rayCastInside, edgeToggles,
        squarePolygon, insideSquareOpts, List.range_succ]
      simp⟩

/-- C5: the offset computed on each parse equals
`(canvasSize * relativePosition / 100) - (scaled bounding box / 2)`
component-wise; for canvas `800×600`, relative position `(50,50)` and scaled
bounding box `200×100` it is `(300, 250)`. -/
theorem c5_offset_formula :
    (∀ canvasSize : IDimension, ∀ pos : ICoordinates, ∀ dim : IDimension,
      parseOffset canvasSize (some pos) dim =
        ⟨canvasSize.width * pos.x / 100 - dim.width / 2,
         canvasSize.height * pos.y / 100 - dim.height / 2⟩) ∧
    parseOffset ⟨800, 600⟩ (some ⟨50, 50⟩) ⟨200, 100⟩ = ⟨300, 250⟩ := by
  refine ⟨fun canvasSize pos dim => rfl, ?_⟩
  norm_num [parseOffset]

/-- C7 counterexample: `stop()` does not discard the offset — on a state
with offset `(1,2)` the offset is still present after `stop()`. -/
theorem c7_stop_keeps_offset_counterexample :
    (stop ⟨some squarePolygon, Option.none, some ⟨1, 2⟩⟩).offset = some ⟨1, 2⟩ ∧
    (stop ⟨some squarePolygon, Option.none, some ⟨1, 2⟩⟩).offset ≠ Option.none := by
  exact ⟨rfl, by simp [stop]⟩

/-- C7 (amended): `stop()` discards the loaded polygon data and the parsed
path segments (but keeps the offset), and it is idempotent. -/
theorem c7_stop_discards_raw_paths_idempotent (s : MaskState) :
    (stop s).raw = Option.none ∧ (stop s).paths = Option.none ∧
    (stop s).offset = s.offset ∧ stop (stop s) = stop s :=
  ⟨rfl, rfl, rfl, rfl⟩

/-- C8 counterexample: with the mask disabled but type `inline` and the
inline arrangement configured as `onePerPoint`, `particlesInitialization`
spawns nothing and returns false, although the claim requires true. -/
theorem c8_arrangement_alone_insufficient_counterexample :
    (⟨false, PolygonMaskType.inline, PolygonMaskInlineArrangement.onePerPoint,
        Option.none, Option.none⟩ : PolygonOptions).arrangement
      = PolygonMaskInlineArrangement.onePerPoint ∧
    particlesInitialization
      (some ⟨false, PolygonMaskType.inline, PolygonMaskInlineArrangement.onePerPoint,
        Option.none, Option.none⟩)
      loadedSquareState = (false, []) := by
  exact ⟨rfl, by simp [particlesInitialization]⟩

/-- C8 (amended): `particlesInitialization()` returns true and spawns one
particle per vertex of the loaded polygon (nothing when no polygon is
loaded) exactly when the mask is enabled with type `inline` and the inline
arrangement is `onePerPoint` or `perPoint`; in every other configuration it
spawns nothing and returns false. -/
theorem c8_particles_initialization_guard (o : PolygonOptions) (s : MaskState) :
    ((particlesInitialization (some o) s).1 = true ↔
      (o.enable = true ∧ o.type = PolygonMaskType.inline ∧
        (o.arrangement = PolygonMaskInlineArrangement.onePerPoint ∨
         o.arrangement = PolygonMaskInlineArrangement.perPoint))) ∧
    ((particlesInitialization (some o) s).1 = true →
      (particlesInitialization (some o) s).2 = s.raw.getD []) ∧
    ((particlesInitialization (some o) s).1 = false →
      (particlesInitialization (some o) s).2 = []) ∧
    particlesInitialization Option.none s = (false, []) := by
  have hdraw : drawPoints s = s.raw.getD [] := by
    cases h : s.raw with
    | none => simp [drawPoints, h]
    | some l => simp [drawPoints, h]
  by_cases hg : o.enable = true ∧ o.type = PolygonMaskType.inline ∧
      (o.arrangement = PolygonMaskInlineArrangement.onePerPoint ∨
       o.arrangement = PolygonMaskInlineArrangement.perPoint)
  · obtain ⟨h1, h2, h3⟩ := hg
    rcases h3 with h3 | h3 <;>
      simp [particlesInitialization, h1, h2, h3, hdraw]
  · push_neg at hg
    refine ⟨?_, ?_, ?_, rfl⟩ <;>
      by_cases h1 : o.enable = true <;>
      by_cases h2 : o.type = PolygonMaskType.inline <;>
      by_cases h3 : o.arrangement = PolygonMaskInlineArrangement.onePerPoint <;>
      by_cases h4 : o.arrangement = PolygonMaskInlineArrangement.perPoint <;>
      simp_all [particlesInitialization]

/-- Witness for C8 (amended): enabled inline mask with `onePerPoint` spawns
the square's four vertices and reports handled. -/
theorem c8_particles_initialization_guard_witness :
    (particlesInitialization
        (some ⟨true, PolygonMaskType.inline, PolygonMaskInlineArrangement.onePerPoint,
          Option.none, Option.none⟩) loadedSquareState).1 = true ∧
    (particlesInitialization
        (some ⟨true, PolygonMaskType.inline, PolygonMaskInlineArrangement.onePerPoint,
          Option.none, Option.none⟩) loadedSquareState).2 = squarePolygon := by
  have h := c8_particles_initialization_guard
    ⟨true, PolygonMaskType.inline, PolygonMaskInlineArrangement.onePerPoint,
      Option.none, Option.none⟩ loadedSquareState
  have h1 : (particlesInitialization
      (some ⟨true, PolygonMaskType.inline, PolygonMaskInlineArrangement.onePerPoint,
        Option.none, Option.none⟩) loadedSquareState).1 = true :=
    h.1.mpr ⟨rfl, rfl, Or.inl rfl⟩
  refine ⟨h1, ?_⟩
  have h2 := h.2.1 h1
  simpa [loadedSquareState] using h2

/-- C9: the per-point sampler `_getPointByIndex` errors with the
data-not-loaded message exactly when no polygon is loaded (`raw` absent or
empty), and otherwise returns the vertex at `index mod polygonLength`. -/
theorem c9_point_by_index (raw? : Option (List ICoordinates)) (i : Nat) :
    (getPointByIndex raw? i = Except.error noPolygonDataLoaded ↔
      (raw? = Option.none ∨ raw? = some [])) ∧
    (∀ l, raw? = some l → l ≠ [] →
      getPointByIndex raw? i = Except.ok (l.getD (i % l.length) ⟨0, 0⟩)) := by
  cases raw? with
  | none => simp [getPointByIndex]
  | some l =>
    cases l with
    | nil => simp [getPointByIndex]
    | cons a as =>
      constructor
      · simp [getPointByIndex]
      · rintro l' hl' -
        injection hl' with hl'
        subst hl'
        simp [getPointByIndex]

/-- Witness for C9: on the square polygon with index 6 the sampler returns
vertex `6 mod 4 = 2`, namely `(10,10)`; and its error case at `none`. -/
theorem c9_point_by_index_witness :
    getPointByIndex (some squarePolygon) 6 = Except.ok ⟨10, 10⟩ ∧
    getPointByIndex Option.none 6 = Except.error noPolygonDataLoaded := by
  constructor
  · have h := (c9_point_by_index (some squarePolygon) 6).2 squarePolygon rfl
      (by simp [squarePolygon])
    simpa [squarePolygon] using h
  · exact (c9_point_by_index Option.none 6).1.mpr (Or.inl rfl)

/-- C10: `particlePosition` returns undefined whenever options are missing,
the mask is disabled, or the raw polygon is absent or empty; and when a
position is supplied while enabled with a nonempty polygon, it returns a
value-identical copy of that position with no containment test applied. -/
theorem c10_particle_position_passthrough (o : PolygonOptions) (s : MaskState)
    (pos rnd : Option ICoordinates) (p : ICoordinates) :
    particlePosition Option.none s pos rnd = Option.none ∧
    (o.enable = false → particlePosition (some o) s pos rnd = Option.none) ∧
    (s.raw = Option.none ∨ s.raw = some [] →
      particlePosition (some o) s pos rnd = Option.none) ∧
    (o.enable = true → 0 < (s.raw.map List.length).getD 0 →
      particlePosition (some o) s (some p) rnd = some p) := by
  refine ⟨rfl, ?_, ?_, ?_⟩
  · intro h
    simp [particlePosition, h]
  · rintro (h | h) <;> simp [particlePosition, h]
  · intro h1 h2
    simp [particlePosition, h1, h2]

/-- Witness for C10: the supplied point `(15,15)` lies outside the square,
yet the enabled mask passes it through unchanged; with an empty state the
result is undefined. -/
theorem c10_particle_position_passthrough_witness :
    particlePosition (some insideSquareOpts) loadedSquareState
        (some ⟨15, 15⟩) Option.none = some ⟨15, 15⟩ ∧
    rayCastInside squarePolygon 15 15 = false ∧
    particlePosition (some insideSquareOpts) ⟨Option.none, Option.none, Option.none⟩
        (some ⟨15, 15⟩) Option.none = Option.none := by
  refine ⟨?_, ?_, ?_⟩
  · exact (c10_particle_position_passthrough insideSquareOpts loadedSquareState
      (some ⟨15, 15⟩) Option.none ⟨15, 15⟩).2.2.2 rfl
      (by simp [loadedSquareState, squarePolygon])
  · norm_num [rayCastInside, edgeToggles, squarePolygon, List.range_succ]
  · exact (c10_particle_position_passthrough insideSquareOpts
      ⟨Option.none, Option.none, Option.none⟩ (some ⟨15, 15⟩) Option.none
      ⟨15, 15⟩).2.2.1 (Or.inl rfl)

/-- C4: with a parsed result already cached (`paths` set) and `force` false
(or absent), `_downloadSvgPath` returns the stored raw point data without
fetching, and the `_parseSvgPath` cache guard returns the stored raw without
re-parsing.  Both operations are pure in the model and the cached branch of
the source leaves the instance state untouched, so a second call with the
same state and arguments produces the identical raw data again. -/
theorem c4_cached_load_idempotent (o : PolygonOptions) (s : MaskState)
    (url : Option String) (ps : List ISvgPath) (f : Option Bool)
    (hps : s.paths = some ps) (hf : f = Option.none ∨ f = some false) :
    downloadSvgPath (some o) s url f = DownloadOutcome.cachedRaw s.raw ∧
    parseSvgPathOutcome s f = ParseOutcome.cachedRaw s.raw := by
  have hforce : f.getD false = false := by rcases hf with h | h <;> simp [h]
  constructor
  · cases url with
    | none =>
      cases ho : o.url with
      | none => simp [downloadSvgPath, ho]
      | some u => simp [downloadSvgPath, ho, hps, hforce]
    | some u => simp [downloadSvgPath, hps, hforce]
  · simp [parseSvgPathOutcome, hps, hforce]


/-- Witness for C4: cached state with the square polygon, url present,
`force = false` — the download returns the cached raw and the parse guard
short-circuits. -/
theorem c4_cached_load_idempotent_witness :
    downloadSvgPath
        (some ⟨true, PolygonMaskType.inside, PolygonMaskInlineArrangement.onePerPoint,
          Option.none, some "poly.svg"⟩)
        ⟨some squarePolygon, some [], Option.none⟩ (some "poly.svg") (some false)
      = DownloadOutcome.cachedRaw (some squarePolygon) ∧
    parseSvgPathOutcome ⟨some squarePolygon, some [], Option.none⟩ (some false)
      = ParseOutcome.cachedRaw (some squarePolygon) :=
  c4_cached_load_idempotent
    ⟨true, PolygonMaskType.inside, PolygonMaskInlineArrangement.onePerPoint,
      Option.none, some "poly.svg"⟩
    ⟨some squarePolygon, some [], Option.none⟩ (some "poly.svg") [] (some false)
    rfl (Or.inr rfl)

/-- Default path used with `List.getD` when stating segment-selection
facts; never reached by the proofs. -/
def dfltPath : ISvgPath := ⟨0, fun _ => ⟨0, 0⟩⟩

/-- Folding path lengths starting from `a` equals `a` plus the total. -/
theorem foldl_length_shift (l : List ISvgPath) :
    ∀ a : ℚ, l.foldl (fun tot p => tot + p.length) a = a + totalPathLength l := by
  induction l with
  | nil => intro a; simp [totalPathLength]
  | cons p rest ih =>
    intro a
    simp only [totalPathLength, List.foldl_cons]
    rw [ih (a + p.length), ih (0 + p.length)]
    ring

/-- Total length of a cons cell. -/
theorem totalPathLength_cons (p : ISvgPath) (l : List ISvgPath) :
    totalPathLength (p :: l) = p.length + totalPathLength l := by
  rw [totalPathLength, List.foldl_cons, foldl_length_shift]
  ring

/-- Characterisation of the segment walk: a successful walk lands on the
first segment whose length is not exceeded by the target minus the lengths
of the segments before it, and the residual offset is exactly that
difference. -/
theorem walkSegments_first_fit (paths : List ISvgPath) (t : ℚ) (k : Nat) (r : ℚ)
    (h : walkSegments paths t = some (k, r)) :
    k < paths.length ∧
    r = t - totalPathLength (paths.take k) ∧
    r ≤ (paths.getD k dfltPath).length ∧
    ∀ m < k, (paths.getD m dfltPath).length < t - totalPathLength (paths.take m) := by
  induction paths generalizing t k r with
  | nil => simp [walkSegments] at h
  | cons p rest ih =>
    rw [walkSegments] at h
    by_cases hle : t ≤ p.length
    · rw [if_pos hle] at h
      simp only [Option.some.injEq, Prod.mk.injEq] at h
      obtain ⟨hk, hr⟩ := h
      subst hk
      subst hr
      refine ⟨by simp, by simp [totalPathLength], by simpa using hle, by omega⟩
    · rw [if_neg hle] at h
      cases hw : walkSegments rest (t - p.length) with
      | none => rw [hw] at h; simp at h
      | some kr =>
        obtain ⟨k', r'⟩ := kr
        rw [hw] at h
        simp only [Option.map_some', Option.some.injEq, Prod.mk.injEq] at h
        obtain ⟨hk, hr⟩ := h
        subst hk
        subst hr
        obtain ⟨ih1, ih2, ih3, ih4⟩ := ih (t - p.length) k' r' hw
        refine ⟨?_, ?_, ?_, ?_⟩
        · simp only [List.length_cons]
          omega
        · rw [List.take_succ_cons, totalPathLength_cons, ih2]
          ring
        · simpa using ih3
        · intro m hm
          cases m with
          | zero =>
            simp only [List.take_zero, List.getD_cons_zero]
            have : totalPathLength ([] : List ISvgPath) = 0 := by simp [totalPathLength]
            rw [this]
            linarith [lt_of_not_le hle]
          | succ m' =>
            have hm' : m' < k' := by omega
            have := ih4 m' hm'
            simp only [List.take_succ_cons, List.getD_cons_succ, totalPathLength_cons]
            linarith

/-- C6: equidistant sampling uses stride `totalLength / particleCount`; for
index `i` the walk selects the first segment in order whose length is not
exceeded by `stride * i` minus the lengths of the preceding segments, with
the residual offset resolved inside it; and for `i < N` the implied offsets
`stride * i` are nonnegative, below the total length and monotonically
non-decreasing. -/
theorem c6_equidistant_first_fit_and_span (paths : List ISvgPath) (N i k : Nat) (r : ℚ)
    (hN : 0 < N) (hi : i < N) (hL : 0 < totalPathLength paths)
    (hwalk : walkSegments paths (equidistantStride paths (N : ℚ) * (i : ℚ)) = some (k, r)) :
    (k < paths.length ∧
     r = equidistantStride paths (N : ℚ) * (i : ℚ) - totalPathLength (paths.take k) ∧
     r ≤ (paths.getD k dfltPath).length ∧
     ∀ m < k, (paths.getD m dfltPath).length <
       equidistantStride paths (N : ℚ) * (i : ℚ) - totalPathLength (paths.take m)) ∧
    0 ≤ equidistantStride paths (N : ℚ) * (i : ℚ) ∧
    equidistantStride paths (N : ℚ) * (i : ℚ) < totalPathLength paths ∧
    equidistantStride paths (N : ℚ) * (i : ℚ) ≤
      equidistantStride paths (N : ℚ) * ((i : ℚ) + 1) := by
  have hNq : (0 : ℚ) < (N : ℚ) := by exact_mod_cast hN
  have hiq : (i : ℚ) < (N : ℚ) := by exact_mod_cast hi
  have hiq0 : (0 : ℚ) ≤ (i : ℚ) := by positivity
  have hst : 0 < equidistantStride paths (N : ℚ) := by
    rw [equidistantStride]
    positivity
  refine ⟨walkSegments_first_fit paths _ k r hwalk, ?_, ?_, ?_⟩
  · positivity
  · rw [equidistantStride, div_mul_eq_mul_div, div_lt_iff₀ hNq]
    calc totalPathLength paths * (i : ℚ)
        < totalPathLength paths * (N : ℚ) := by
          exact mul_lt_mul_of_pos_left hiq hL
      _ = totalPathLength paths * (N : ℚ) := rfl
  · have : (i : ℚ) ≤ (i : ℚ) + 1 := by linarith
    exact mul_le_mul_of_nonneg_left this (le_of_lt hst)

/-- Two concrete path segments (lengths 5 and 10) used by the C6 witness. -/
def witnessPaths : List ISvgPath :=
  [⟨5, fun d => ⟨d, 0⟩⟩, ⟨10, fun d => ⟨5 + d, 0⟩⟩]

/-- Witness for C6: total length 15, three particles, index 2: the stride is
5, the implied offset 10 lands in the second segment at residual 5. -/
theorem c6_equidistant_first_fit_and_span_witness :
    walkSegments witnessPaths (equidistantStride witnessPaths ((3 : Nat) : ℚ) * ((2 : Nat) : ℚ))
      = some (1, 5) ∧
    (1 < witnessPaths.length ∧
     (5 : ℚ) = equidistantStride witnessPaths ((3 : Nat) : ℚ) * ((2 : Nat) : ℚ) -
       totalPathLength (witnessPaths.take 1) ∧
     (5 : ℚ) ≤ (witnessPaths.getD 1 dfltPath).length ∧
     ∀ m < 1, (witnessPaths.getD m dfltPath).length <
       equidistantStride witnessPaths ((3 : Nat) : ℚ) * ((2 : Nat) : ℚ) -
         totalPathLength (witnessPaths.take m)) ∧
    0 ≤ equidistantStride witnessPaths ((3 : Nat) : ℚ) * ((2 : Nat) : ℚ) ∧
    equidistantStride witnessPaths ((3 : Nat) : ℚ) * ((2 : Nat) : ℚ) <
      totalPathLength witnessPaths ∧
    equidistantStride witnessPaths ((3 : Nat) : ℚ) * ((2 : Nat) : ℚ) ≤
      equidistantStride witnessPaths ((3 : Nat) : ℚ) * (((2 : Nat) : ℚ) + 1) := by
  have hwalk : walkSegments witnessPaths
      (equidistantStride witnessPaths ((3 : Nat) : ℚ) * ((2 : Nat) : ℚ)) = some (1, 5) := by
    norm_num [walkSegments, equidistantStride, totalPathLength, witnessPaths]
  exact ⟨hwalk,
    c6_equidistant_first_fit_and_span witnessPaths 3 2 1 5 (by norm_num) (by norm_num)
      (by norm_num [totalPathLength, witnessPaths]) hwalk⟩

/-- The closest point on the last edge visited by the `_polygonBounce` loop;
this is the value of the `closest` variable after a loop with no hits. -/
def lastEdgeClosest (edges : List (ICoordinates × ICoordinates)) (pos : ICoordinates) :
    Option ICoordinates :=
  edges.getLast?.map (fun e => calcClosestPtOnSegment e.1 e.2 pos)

/-- When no edge is strictly within the squared radius, the scan reports no
hit and leaves `closest` at the last edge's closest point. -/
theorem bounceScanEdges_no_hit (pos : ICoordinates) (rsq : ℚ) :
    ∀ (edges : List (ICoordinates × ICoordinates)) (acc : Option ICoordinates),
      edges ≠ [] →
      (∀ e ∈ edges, ¬ distSq pos (calcClosestPtOnSegment e.1 e.2 pos) < rsq) →
      bounceScanEdges edges pos rsq acc = (Option.none, lastEdgeClosest edges pos) := by
  intro edges
  induction edges with
  | nil => intro acc hne _; exact absurd rfl hne
  | cons e rest ih =>
    intro acc _ h
    have he := h e (List.mem_cons_self e rest)
    rw [bounceScanEdges, if_neg he]
    cases rest with
    | nil => simp [bounceScanEdges, lastEdgeClosest]
    | cons f fs =>
      rw [ih (some (calcClosestPtOnSegment e.1 e.2 pos)) (by simp)
        (fun e' he' => h e' (List.mem_cons_of_mem e he'))]
      simp [lastEdgeClosest]

/-- A nonempty polygon yields a nonempty edge list. -/
theorem polygonEdges_ne_nil (raw : List ICoordinates) (h : raw ≠ []) :
    polygonEdges raw ≠ [] := by
  simp only [polygonEdges, ne_eq, List.map_eq_nil_iff, List.range_eq_nil]
  exact fun hlen => h (List.length_eq_zero.mp hlen)

/-- C3 (amended): in `_polygonBounce` with type `inside` or `outside`, when
no edge lies strictly within the particle's radius but the particle violates
the mask's containment rule, the position is set one diameter (twice the
radius) beyond the closest point on the last visited edge — the one joining
the last and second-to-last vertices — with the sign on each axis determined
by the particle's side of that point; the velocity is multiplied by `-1` and
the call reports handled. -/
theorem c3_bounce_snap_beyond_last_closest (o : PolygonOptions) (s : MaskState)
    (p : ParticleState) (raw : List ICoordinates) (m : ℚ) (c : ICoordinates)
    (hraw : s.raw = some raw) (hne : raw ≠ [])
    (hen : o.enable = true)
    (hty : o.type = PolygonMaskType.inside ∨ o.type = PolygonMaskType.outside)
    (hnohit : ∀ e ∈ polygonEdges raw,
      ¬ distSq p.pos (calcClosestPtOnSegment e.1 e.2 p.pos) < p.radius * p.radius)
    (hc : lastEdgeClosest (polygonEdges raw) p.pos = some c)
    (hout : checkInsideCore o raw p.pos.x p.pos.y = false) :
    polygonBounce (some o) s p OutModeDirection.top m =
      (true, { p with
        pos := ⟨c.x + p.radius * 2 * (if p.pos.x ≥ c.x then -1 else 1),
                c.y + p.radius * 2 * (if p.pos.y ≥ c.y then -1 else 1)⟩,
        vel := ⟨p.vel.x * (-1), p.vel.y * (-1)⟩ }) := by
  have hscan := bounceScanEdges_no_hit p.pos (p.radius * p.radius) (polygonEdges raw)
    Option.none (polygonEdges_ne_nil raw hne) hnohit
  obtain ⟨sraw, spaths, soffset⟩ := s
  simp only [MaskState.raw] at hraw
  subst hraw
  rw [polygonBounce]
  rw [hscan, hc]
  have htype : (o.type = PolygonMaskType.inside || o.type = PolygonMaskType.outside) = true := by
    rcases hty with h | h <;> simp [h]
  simp [hen, htype, hout]
  rfl

/-- Concrete particle for the C3 witness and counterexample: at `(20, 5)`,
radius 1, velocity `(1, 1)`. -/
def cexParticle : ParticleState := ⟨⟨20, 5⟩, ⟨1, 1⟩, 1, Option.none⟩

/-- Witness for C3 (amended): on the loaded square the particle at `(20,5)`
has no edge within its radius, fails the `inside` rule, and is snapped to
`(8, 12)` — one diameter past `(10, 10)`, the closest point on the last
visited edge — with velocity `(-1, -1)`. -/
theorem c3_bounce_snap_beyond_last_closest_witness :
    polygonBounce (some insideSquareOpts) loadedSquareState cexParticle
        OutModeDirection.top 0 =
      (true, ⟨⟨8, 12⟩, ⟨-1, -1⟩, 1, Option.none⟩) := by
  have hedges : polygonEdges squarePolygon =
      [(⟨0, 0⟩, ⟨0, 10⟩), (⟨10, 0⟩, ⟨0, 0⟩), (⟨10, 10⟩, ⟨10, 0⟩), (⟨0, 10⟩, ⟨10, 10⟩)] := by
    norm_num [polygonEdges, squarePolygon, List.range_succ]
  have hnohit : ∀ e ∈ polygonEdges squarePolygon,
      ¬ distSq cexParticle.pos (calcClosestPtOnSegment e.1 e.2 cexParticle.pos) <
        cexParticle.radius * cexParticle.radius := by
    intro e he
    rw [hedges] at he
    simp only [List.mem_cons, List.not_mem_nil, or_false] at he
    rcases he with rfl | rfl | rfl | rfl <;>
      norm_num [distSq, calcClosestPtOnSegment, cexParticle]
  have hc : lastEdgeClosest (polygonEdges squarePolygon) cexParticle.pos
      = some ⟨10, 10⟩ := by
    rw [hedges]
    norm_num [lastEdgeClosest, calcClosestPtOnSegment, cexParticle]
  have hout : checkInsideCore insideSquareOpts squarePolygon
      cexParticle.pos.x cexParticle.pos.y = false := by
    norm_num [checkInsideCore, insideSquareOpts, rayCastInside, edgeToggles,
      squarePolygon, cexParticle, List.range_succ]
    simp
  have h := c3_bounce_snap_beyond_last_closest insideSquareOpts loadedSquareState
    cexParticle squarePolygon 0 ⟨10, 10⟩ rfl (by simp [squarePolygon]) rfl
    (Or.inl rfl) hnohit hc hout
  rw [h]
  norm_num [cexParticle]

/-- C3 counterexample: at the same input the claim's hypotheses hold (no
edge within the radius, containment rule violated), the call is handled and
inverts the velocity as claimed, but the new position `(8, 12)` is not
`closest + twice-the-diameter` (displacement 4 per axis) for the closest
point of any edge of the square — in particular not for the globally
closest edge point `(10, 5)`. -/
theorem c3_twice_diameter_counterexample :
    ((polygonEdges squarePolygon).all fun e =>
      !(decide (distSq ⟨20, 5⟩ (calcClosestPtOnSegment e.1 e.2 ⟨20, 5⟩) < 1))) = true ∧
    rayCastInside squarePolygon 20 5 = false ∧
    (polygonBounce (some insideSquareOpts) loadedSquareState cexParticle
        OutModeDirection.top 0).1 = true ∧
    (polygonBounce (some insideSquareOpts) loadedSquareState cexParticle
        OutModeDirection.top 0).2.vel = ⟨-1, -1⟩ ∧
    (polygonBounce (some insideSquareOpts) loadedSquareState cexParticle
        OutModeDirection.top 0).2.pos = ⟨8, 12⟩ ∧
    calcClosestPtOnSegment ⟨10, 10⟩ ⟨10, 0⟩ ⟨20, 5⟩ = ⟨10, 5⟩ ∧
    ((polygonEdges squarePolygon).all fun e =>
      let c := calcClosestPtOnSegment e.1 e.2 ⟨20, 5⟩
      !(decide ((⟨8, 12⟩ : ICoordinates) =
        ⟨c.x + 4 * (if (20 : ℚ) ≥ c.x then -1 else 1),
         c.y + 4 * (if (5 : ℚ) ≥ c.y then -1 else 1)⟩))) = true := by
  refine ⟨?_, ?_, ?_, ?_, ?_, ?_, ?_⟩
  · norm_num [polygonEdges, squarePolygon, List.range_succ, distSq,
      calcClosestPtOnSegment]
  · norm_num [rayCastInside, edgeToggles, squarePolygon, List.range_succ]
  all_goals
    norm_num [polygonBounce, bounceScanEdges, polygonEdges, squarePolygon,
      List.range_succ, distSq, calcClosestPtOnSegment, checkInsideCore,
      insideSquareOpts, rayCastInside, edgeToggles, loadedSquareState,
      cexParticle] <;> simp
